import Mathlib

/-!
# Verification of the proto conversion layer

Shallow embedding of the repository's conversion traits (`src/src/lib.rs`):
the presence-unwrap helper `Required::required`, the generic
`FromProto`/`ToProto` instances for `Option<T>` and `Vec<T>`, and the
`impl_traits!` macro arms that generate conversions between the two-field
wire records `{seconds: i64, nanos: u32}` and `chrono::Duration` /
`chrono::DateTime<chrono::Utc>`.

Modelling choices:
* `anyhow::Result<T>` becomes `Except String T` (the error carries the
  formatted message).
* `chrono::Duration` is a signed quantity of nanoseconds capped at
  ±`i64::MAX` milliseconds (about ±292 million years); a duration value is
  an `Int` inside that range.  `Duration::seconds` panics
  ("Duration::seconds out of bounds") when `|s|` exceeds `i64::MAX / 1000`
  seconds, and the `+`/`-` operators panic when the result leaves the
  range.  Those panics are modelled as `none` in an `Option` layer, so the
  duration from-wire conversion returns `Option (Except String Int)`:
  `none` is a panic, `some` the `anyhow::Result` the function returns.
* `std::time::Duration` (used by `to_proto` through `to_std`) is a
  non-negative nanosecond count; `as_secs`/`subsec_nanos` are division and
  remainder by 10^9 on `Nat`.
* `chrono::NaiveDateTime` is modelled the way chrono stores it: a calendar
  date as days from the Common Era, a second-of-day, and a
  nanosecond-of-second that may reach 1_999_999_999 to represent a leap
  second.  `NaiveDateTime::from_timestamp_opt` splits the Unix second count
  with Euclidean division by 86400 and rejects dates outside chrono's
  calendar range (years -262144 to 262143) and nanosecond values of
  2_000_000_000 or more; `timestamp`/`timestamp_subsec_nanos` recombine the
  parts.  `chrono::DateTime<chrono::Utc>` is its naive UTC part.
-/

/-- Wire record generated for `message Duration { int64 seconds; uint32 nanos; }`.
`seconds` is an `i64` (modelled as `Int`), `nanos` a `u32` (modelled as `Nat`). -/
structure ProtoDuration where
  seconds : Int
  nanos : Nat
  deriving Repr, DecidableEq

/-- Wire record generated for `message DateTimeUtc { int64 seconds; uint32 nanos; }`. -/
structure ProtoDateTimeUtc where
  seconds : Int
  nanos : Nat
  deriving Repr, DecidableEq

/-- chrono's largest representable duration, `i64::MAX` milliseconds, in
nanoseconds: `9223372036854775807 * 10^6`. -/
def chronoDurMaxNanos : Int := 9223372036854775807000000

/-- chrono's smallest representable duration, `-i64::MAX` milliseconds, in
nanoseconds. -/
def chronoDurMinNanos : Int := -9223372036854775807000000

/-- `chrono::Duration::seconds`: a duration of `s` whole seconds, as
nanoseconds.  `none` models the "Duration::seconds out of bounds" panic,
hit exactly when `|s|` exceeds `i64::MAX / 1000` seconds. -/
def chronoSeconds (s : Int) : Option Int :=
  if chronoDurMinNanos ≤ s * 1000000000 ∧ s * 1000000000 ≤ chronoDurMaxNanos then
    some (s * 1000000000)
  else
    none

/-- `chrono::Duration::nanoseconds`: a duration of `n` nanoseconds.  Total:
every `i64` nanosecond count is inside the ±`i64::MAX`-millisecond range. -/
def chronoNanoseconds (n : Int) : Int := n

/-- `chrono::Duration + chrono::Duration`: `none` models the overflow panic
when the sum leaves chrono's range. -/
def chronoAdd (a b : Int) : Option Int :=
  if chronoDurMinNanos ≤ a + b ∧ a + b ≤ chronoDurMaxNanos then
    some (a + b)
  else
    none

/-- `chrono::Duration - chrono::Duration`: `none` models the overflow panic
when the difference leaves chrono's range. -/
def chronoSub (a b : Int) : Option Int :=
  if chronoDurMinNanos ≤ a - b ∧ a - b ≤ chronoDurMaxNanos then
    some (a - b)
  else
    none

/-- `std::time::Duration::as_secs` of a non-negative total-nanosecond count. -/
def stdAsSecs (totalNanos : Nat) : Nat := totalNanos / 1000000000

/-- `std::time::Duration::subsec_nanos` of a non-negative total-nanosecond count. -/
def stdSubsecNanos (totalNanos : Nat) : Nat := totalNanos % 1000000000

/-- `FromProto::from_proto` for the `chrono::Duration` arm of `impl_traits!`
(src/src/lib.rs lines 92–102): if `seconds >= 0` the result is
`Duration::seconds(seconds) + Duration::nanoseconds(nanos as i64)`, otherwise
`Duration::seconds(seconds) - Duration::nanoseconds(nanos as i64)`.
Both branches return `Ok`.  The outer `Option` models a chrono panic
(`none` = the constructor or the `+`/`-` panics before a `Result` exists);
the inner `Except` is the `anyhow::Result` the function returns. -/
def durFromProto (p : ProtoDuration) : Option (Except String Int) :=
  if p.seconds ≥ 0 then
    match chronoSeconds p.seconds with
    | none => none
    | some base =>
      match chronoAdd base (chronoNanoseconds (p.nanos : Int)) with
      | none => none
      | some d => some (Except.ok d)
  else
    match chronoSeconds p.seconds with
    | none => none
    | some base =>
      match chronoSub base (chronoNanoseconds (p.nanos : Int)) with
      | none => none
      | some d => some (Except.ok d)

/-- `ToProto::to_proto` for the `chrono::Duration` arm of `impl_traits!`
(src/src/lib.rs lines 107–116): for a non-negative duration, convert to a
`std::time::Duration` and take `(as_secs as i64, subsec_nanos)`; for a
negative one, negate first, convert, and re-negate only the seconds field. -/
def durToProto (d : Int) : ProtoDuration :=
  if d ≥ 0 then
    { seconds := Int.ofNat (stdAsSecs d.toNat), nanos := stdSubsecNanos d.toNat }
  else
    { seconds := - Int.ofNat (stdAsSecs (-d).toNat), nanos := stdSubsecNanos (-d).toNat }

example : durFromProto ⟨1, 2⟩ = some (Except.ok 1000000002) := rfl

/-- Case analysis of `durFromProto`: it completes with `Ok` of the decoded
value exactly when the seconds constructor and the nanosecond adjustment both
stay inside chrono's range, and otherwise panics (`none`). -/
theorem durFromProto_char (s : Int) (n : Nat) :
    durFromProto ⟨s, n⟩ =
      if s ≥ 0 then
        if chronoDurMinNanos ≤ s * 1000000000 ∧ s * 1000000000 ≤ chronoDurMaxNanos then
          if chronoDurMinNanos ≤ s * 1000000000 + (n : Int) ∧
              s * 1000000000 + (n : Int) ≤ chronoDurMaxNanos then
            some (Except.ok (s * 1000000000 + (n : Int)))
          else none
        else none
      else
        if chronoDurMinNanos ≤ s * 1000000000 ∧ s * 1000000000 ≤ chronoDurMaxNanos then
          if chronoDurMinNanos ≤ s * 1000000000 - (n : Int) ∧
              s * 1000000000 - (n : Int) ≤ chronoDurMaxNanos then
            some (Except.ok (s * 1000000000 - (n : Int)))
          else none
        else none := by
  by_cases hs : s ≥ 0
  · by_cases hb : chronoDurMinNanos ≤ s * 1000000000 ∧ s * 1000000000 ≤ chronoDurMaxNanos
    · by_cases ha : chronoDurMinNanos ≤ s * 1000000000 + (n : Int) ∧
          s * 1000000000 + (n : Int) ≤ chronoDurMaxNanos
      · simp only [durFromProto, chronoSeconds, chronoNanoseconds, chronoAdd,
          hs, hb, ha, and_self, ite_true, ite_false]
      · simp only [durFromProto, chronoSeconds, chronoNanoseconds, chronoAdd,
          hs, hb, ha, and_self, ite_true, ite_false]
    · simp only [durFromProto, chronoSeconds, hs, hb, and_self, ite_true, ite_false]
  · by_cases hb : chronoDurMinNanos ≤ s * 1000000000 ∧ s * 1000000000 ≤ chronoDurMaxNanos
    · by_cases ha : chronoDurMinNanos ≤ s * 1000000000 - (n : Int) ∧
          s * 1000000000 - (n : Int) ≤ chronoDurMaxNanos
      · simp only [durFromProto, chronoSeconds, chronoNanoseconds, chronoSub,
          hs, hb, ha, and_self, ite_true, ite_false]
      · simp only [durFromProto, chronoSeconds, chronoNanoseconds, chronoSub,
          hs, hb, ha, and_self, ite_true, ite_false]
    · simp only [durFromProto, chronoSeconds, hs, hb, and_self, ite_true, ite_false]

/-- **C1 (counterexample)**: the claim says `from_wire({seconds: -1, nanos: 2})`
yields `-(1 second) + 2 nanoseconds = -999999998` nanoseconds.  The code's
negative branch subtracts the nanos, producing `-1000000002` nanoseconds,
which is not `-999999998`. -/
theorem durFromProto_neg_one_two_not_spec :
    durFromProto ⟨-1, 2⟩ = some (Except.ok (-1000000002 : Int)) ∧
      (-1000000002 : Int) ≠ (-999999998 : Int) := by
  exact ⟨rfl, by decide⟩

/-- **C1 (amended)**: the wire value `{seconds: -1, nanos: 2}` converts (with
no panic) to the domain duration `-1 * 10^9 - 2` nanoseconds, i.e.
`-1000000002` nanoseconds total (seconds minus nanos, per the
negative-seconds branch). -/
theorem durFromProto_neg_one_two :
    durFromProto ⟨-1, 2⟩ =
      some (Except.ok ((-1) * 1000000000 - (2 : Int))) := rfl

/-- **C2 (counterexample)**: at `{seconds: 10^16, nanos: 0}` the from-wire
conversion panics inside `Duration::seconds` (`10^16` seconds exceeds
chrono's ±`i64::MAX`-millisecond range), so the round trip cannot return the
input record: the claim fails for this in-range `i64` seconds value. -/
theorem durFromProto_ten_pow_sixteen_panics :
    durFromProto ⟨10000000000000000, 0⟩ = none ∧
      ¬∃ d, durFromProto ⟨10000000000000000, 0⟩ = some (Except.ok d) ∧
        durToProto d = ⟨10000000000000000, 0⟩ := by
  constructor
  · rfl
  · rintro ⟨d, hd, -⟩
    have h0 : durFromProto ⟨10000000000000000, 0⟩ = none := rfl
    rw [h0] at hd
    exact Option.noConfusion hd

/-- **C2 (amended)**: duration round-trip.  For every `seconds : i64` and
`nanos : u32` with `nanos ≤ 999999999` on which the from-wire conversion
completes without a chrono panic (the decoded duration fits the
±`i64::MAX`-millisecond range), the result is `Ok` of a duration whose
to-wire conversion is exactly the same `{seconds, nanos}` record. -/
theorem durToProto_durFromProto_roundtrip (s : Int) (n : Nat)
    (hn : n ≤ 999999999) (r : Except String Int)
    (hr : durFromProto ⟨s, n⟩ = some r) :
    ∃ d, r = Except.ok d ∧ durToProto d = ⟨s, n⟩ := by
  rw [durFromProto_char] at hr
  by_cases hs : s ≥ 0
  · rw [if_pos hs] at hr
    by_cases hb : chronoDurMinNanos ≤ s * 1000000000 ∧ s * 1000000000 ≤ chronoDurMaxNanos
    · rw [if_pos hb] at hr
      by_cases ha : chronoDurMinNanos ≤ s * 1000000000 + (n : Int) ∧
          s * 1000000000 + (n : Int) ≤ chronoDurMaxNanos
      · rw [if_pos ha] at hr
        refine ⟨s * 1000000000 + (n : Int), (Option.some.inj hr).symm, ?_⟩
        simp only [durToProto, stdAsSecs, stdSubsecNanos]
        rw [if_pos (by omega)]
        simp only [ProtoDuration.mk.injEq, Int.ofNat_eq_coe]
        have ht : (s * 1000000000 + (n : Int)).toNat = s.toNat * 1000000000 + n := by
          omega
        rw [ht]
        have hq : (s.toNat * 1000000000 + n) / 1000000000 = s.toNat := by omega
        rw [hq]
        constructor
        · omega
        · omega
      · rw [if_neg ha] at hr
        exact Option.noConfusion hr
    · rw [if_neg hb] at hr
      exact Option.noConfusion hr
  · rw [if_neg hs] at hr
    by_cases hb : chronoDurMinNanos ≤ s * 1000000000 ∧ s * 1000000000 ≤ chronoDurMaxNanos
    · rw [if_pos hb] at hr
      by_cases ha : chronoDurMinNanos ≤ s * 1000000000 - (n : Int) ∧
          s * 1000000000 - (n : Int) ≤ chronoDurMaxNanos
      · rw [if_pos ha] at hr
        refine ⟨s * 1000000000 - (n : Int), (Option.some.inj hr).symm, ?_⟩
        simp only [durToProto, stdAsSecs, stdSubsecNanos]
        rw [if_neg (by omega)]
        simp only [ProtoDuration.mk.injEq, Int.ofNat_eq_coe]
        have ht : (-(s * 1000000000 - (n : Int))).toNat = (-s).toNat * 1000000000 + n := by
          omega
        rw [ht]
        have hq : ((-s).toNat * 1000000000 + n) / 1000000000 = (-s).toNat := by omega
        rw [hq]
        constructor
        · omega
        · omega
      · rw [if_neg ha] at hr
        exact Option.noConfusion hr
    · rw [if_neg hb] at hr
      exact Option.noConfusion hr

/-- Witness for C2: the round-trip theorem applied at the concrete wire value
`{seconds: -1, nanos: 2}` (the repository's own test vector), where the
conversion completes with `Ok (-1000000002)` nanoseconds. -/
theorem durToProto_durFromProto_roundtrip_witness :
    (2 : Nat) ≤ 999999999 ∧
      durFromProto ⟨-1, 2⟩ = some (Except.ok (-1000000002 : Int)) ∧
      ∃ d, (Except.ok (-1000000002 : Int) : Except String Int) = Except.ok d ∧
        durToProto d = ⟨-1, 2⟩ :=
  ⟨by decide, rfl,
    durToProto_durFromProto_roundtrip (-1) 2 (by decide)
      (Except.ok (-1000000002 : Int)) rfl⟩

/-- **C3 (counterexample)**: at `{seconds: i64::MAX, nanos: 0}` the from-wire
conversion does not return a successful domain duration: `Duration::seconds`
panics ("out of bounds"), a failure, so it is not total over every wire
value. -/
theorem durFromProto_i64_max_panics :
    durFromProto ⟨9223372036854775807, 0⟩ = none ∧
      ¬∃ d, durFromProto ⟨9223372036854775807, 0⟩ = some (Except.ok d) := by
  constructor
  · rfl
  · rintro ⟨d, hd⟩
    have h0 : durFromProto ⟨9223372036854775807, 0⟩ = none := rfl
    rw [h0] at hd
    exact Option.noConfusion hd

/-- **C3 (amended)**: the duration from-wire conversion never returns an
error value (whenever it completes, the `Result` is `Ok` with a domain
duration: no invalid encoding is rejected at this layer), and it completes
for every wire record whose decoded duration stays inside chrono's
±`i64::MAX`-millisecond range; outside that range the chrono constructor or
arithmetic panics instead of returning an error. -/
theorem durFromProto_never_error :
    (∀ (p : ProtoDuration) (r : Except String Int),
        durFromProto p = some r → ∃ d, r = Except.ok d) ∧
      ∀ p : ProtoDuration,
        chronoDurMinNanos ≤ p.seconds * 1000000000 - (p.nanos : Int) →
          p.seconds * 1000000000 + (p.nanos : Int) ≤ chronoDurMaxNanos →
          ∃ d, durFromProto p = some (Except.ok d) := by
  constructor
  · rintro ⟨s, n⟩ r hr
    rw [durFromProto_char] at hr
    split_ifs at hr
    all_goals first
      | exact Option.noConfusion hr
      | exact ⟨_, (Option.some.inj hr).symm⟩
  · rintro ⟨s, n⟩ h1 h2
    simp only [chronoDurMinNanos, chronoDurMaxNanos] at h1 h2
    by_cases hs : s ≥ 0
    · refine ⟨s * 1000000000 + (n : Int), ?_⟩
      rw [durFromProto_char, if_pos hs,
        if_pos (by simp only [chronoDurMinNanos, chronoDurMaxNanos]; omega),
        if_pos (by simp only [chronoDurMinNanos, chronoDurMaxNanos]; omega)]
    · refine ⟨s * 1000000000 - (n : Int), ?_⟩
      rw [durFromProto_char, if_neg hs,
        if_pos (by simp only [chronoDurMinNanos, chronoDurMaxNanos]; omega),
        if_pos (by simp only [chronoDurMinNanos, chronoDurMaxNanos]; omega)]

/-- Witness for C3: the amended theorem applied at `{seconds: -1, nanos: 2}`,
whose decoded duration is far inside chrono's range. -/
theorem durFromProto_never_error_witness :
    chronoDurMinNanos ≤ (-1 : Int) * 1000000000 - ((2 : Nat) : Int) ∧
      (-1 : Int) * 1000000000 + ((2 : Nat) : Int) ≤ chronoDurMaxNanos ∧
      ∃ d, durFromProto ⟨-1, 2⟩ = some (Except.ok d) :=
  ⟨by decide, by decide,
    durFromProto_never_error.2 ⟨-1, 2⟩ (by decide) (by decide)⟩

/-- **C9**: output normalisation of the duration to-wire conversion: for every
domain duration (positive, zero, or negative) the produced wire record has
`nanos ≤ 999999999`; the nanos field never carries a sign or a whole second. -/
theorem durToProto_nanos_normalized (d : Int) :
    (durToProto d).nanos ≤ 999999999 := by
  unfold durToProto
  by_cases hd : d ≥ 0
  · rw [if_pos hd]
    simp only [stdSubsecNanos]
    omega
  · rw [if_neg hd]
    simp only [stdSubsecNanos]
    omega

/-! ## Timestamp conversions (`chrono::DateTime<chrono::Utc>` arm) -/

/-- Days from the Common Era of the Unix epoch 1970-01-01
(`NaiveDate::from_ymd(1970, 1, 1).num_days_from_ce()`). -/
def unixEpochDaysFromCE : Int := 719163

/-- Days from the Common Era of chrono's `NaiveDate::MIN` (year -262144, Jan 1),
the smallest calendar date chrono can represent. -/
def minDaysFromCE : Int := -95746495

/-- Days from the Common Era of chrono's `NaiveDate::MAX` (year 262143, Dec 31),
the largest calendar date chrono can represent. -/
def maxDaysFromCE : Int := 95745764

/-- `chrono::NaiveDateTime`, stored the way chrono stores it: a calendar date
(days from the Common Era), a second of the day in `0..86399`, and a
nanosecond of that second which may reach `1999999999` for a leap second. -/
structure NaiveDateTime where
  daysFromCE : Int
  secsOfDay : Nat
  nanosOfSec : Nat
  deriving Repr, DecidableEq

/-- `NaiveDateTime::from_timestamp_opt(secs, nsecs)`: split the Unix second
count with Euclidean division by 86400 (`i64::div_euclid`/`rem_euclid`;
Lean's `/` and `%` on `Int` are exactly Euclidean division and remainder)
into a day index and a second of day;
`None` when the day falls outside chrono's calendar range or
`nsecs >= 2_000_000_000` (values in `1_000_000_000..=1_999_999_999` are
accepted: they encode a leap second). -/
def NaiveDateTime.fromTimestampOpt (secs : Int) (nsecs : Nat) : Option NaiveDateTime :=
  let days := secs / 86400 + unixEpochDaysFromCE
  if nsecs < 2000000000 ∧ minDaysFromCE ≤ days ∧ days ≤ maxDaysFromCE then
    some ⟨days, (secs % 86400).toNat, nsecs⟩
  else
    none

/-- `NaiveDateTime::timestamp()`: non-leap seconds since the Unix epoch. -/
def NaiveDateTime.timestamp (dt : NaiveDateTime) : Int :=
  (dt.daysFromCE - unixEpochDaysFromCE) * 86400 + dt.secsOfDay

/-- `NaiveDateTime::timestamp_subsec_nanos()`: nanoseconds past the last whole
non-leap second (up to `1999999999` during a leap second). -/
def NaiveDateTime.timestampSubsecNanos (dt : NaiveDateTime) : Nat :=
  dt.nanosOfSec

/-- `chrono::DateTime<chrono::Utc>` is its naive UTC part (`naive_utc()` and
`DateTime::from_naive_utc_and_offset(·, Utc)` are mutually inverse and the
offset is the constant `Utc`). -/
def DateTimeUtc := NaiveDateTime
deriving Repr, DecidableEq

/-- `ToProto::to_proto` for the `chrono::DateTime<chrono::Utc>` arm of
`impl_traits!` (src/src/lib.rs lines 122–128): take `naive_utc()` and read
off `timestamp()` and `timestamp_subsec_nanos()`. -/
def dtToProto (d : DateTimeUtc) : ProtoDateTimeUtc :=
  let value : NaiveDateTime := d
  { seconds := value.timestamp, nanos := value.timestampSubsecNanos }

/-- The error message built by `anyhow::bail!("Failed to parse timestamp: {} s
and {} ns", self.seconds, self.nanos)` (src/src/lib.rs lines 138–142). -/
def timestampParseError (secs : Int) (nsecs : Nat) : String :=
  s!"Failed to parse timestamp: {secs} s and {nsecs} ns"

/-- `FromProto::from_proto` for the `chrono::DateTime<chrono::Utc>` arm of
`impl_traits!` (src/src/lib.rs lines 134–146): `from_timestamp_opt` on the two
wire fields; `None` becomes the formatted error, `Some` is wrapped by
`from_naive_utc_and_offset(value, Utc)`. -/
def dtFromProto (p : ProtoDateTimeUtc) : Except String DateTimeUtc :=
  match NaiveDateTime.fromTimestampOpt p.seconds p.nanos with
  | none => Except.error (timestampParseError p.seconds p.nanos)
  | some value => Except.ok value

/-- The `(seconds, nanos)` pairs that denote a valid calendar instant, stated
directly on the wire fields: nanoseconds below two billion, and the second
count within chrono's calendar range.  `-8334632851200` is the Unix second of
`-262144-01-01T00:00:00` and `8210298412799` that of
`262143-12-31T23:59:59`. -/
def validCalendarPair (secs : Int) (nsecs : Nat) : Prop :=
  nsecs < 2000000000 ∧ -8334632851200 ≤ secs ∧ secs ≤ 8210298412799

instance (secs : Int) (nsecs : Nat) : Decidable (validCalendarPair secs nsecs) := by
  unfold validCalendarPair
  infer_instance

/-- Helper: `from_timestamp_opt` succeeds on every valid calendar pair, and
returns the split of the second count by Euclidean division. -/
theorem fromTimestampOpt_eq_some_of_valid (s : Int) (n : Nat)
    (h : validCalendarPair s n) :
    NaiveDateTime.fromTimestampOpt s n =
      some ⟨s / 86400 + unixEpochDaysFromCE, (s % 86400).toNat, n⟩ := by
  obtain ⟨hn, hlo, hhi⟩ := h
  simp only [NaiveDateTime.fromTimestampOpt, unixEpochDaysFromCE,
    minDaysFromCE, maxDaysFromCE]
  rw [if_pos (by omega)]

/-- Helper: `from_timestamp_opt` returns `None` exactly on the invalid pairs. -/
theorem fromTimestampOpt_eq_none_iff (s : Int) (n : Nat) :
    NaiveDateTime.fromTimestampOpt s n = none ↔ ¬ validCalendarPair s n := by
  simp only [NaiveDateTime.fromTimestampOpt, validCalendarPair,
    minDaysFromCE, maxDaysFromCE, unixEpochDaysFromCE]
  by_cases hc : n < 2000000000 ∧ (-95746495 : Int) ≤ s / 86400 + 719163 ∧
      s / 86400 + 719163 ≤ 95745764
  · rw [if_pos hc]
    exact iff_of_false (by simp) (not_not_intro (by omega))
  · rw [if_neg hc]
    exact iff_of_true rfl (by omega)

/-- **C4**: timestamp round-trip.  For every `(seconds, nanos)` pair denoting
a valid calendar instant (negative seconds included), converting from-wire to
a UTC timestamp and back to-wire returns exactly the same record. -/
theorem dtToProto_dtFromProto_roundtrip (s : Int) (n : Nat)
    (h : validCalendarPair s n) :
    ∃ d, dtFromProto ⟨s, n⟩ = Except.ok d ∧ dtToProto d = ⟨s, n⟩ := by
  refine ⟨⟨s / 86400 + unixEpochDaysFromCE, (s % 86400).toNat, n⟩, ?_, ?_⟩
  · simp only [dtFromProto, fromTimestampOpt_eq_some_of_valid s n h]
  · simp only [dtToProto, NaiveDateTime.timestamp,
      NaiveDateTime.timestampSubsecNanos, unixEpochDaysFromCE,
      ProtoDateTimeUtc.mk.injEq]
    refine ⟨by omega, trivial⟩

/-- Witness for C4: the round-trip theorem applied at `{seconds: -1, nanos: 2}`
(the repository's own timestamp test vector). -/
theorem dtToProto_dtFromProto_roundtrip_witness :
    validCalendarPair (-1) 2 ∧
      ∃ d, dtFromProto ⟨-1, 2⟩ = Except.ok d ∧ dtToProto d = ⟨-1, 2⟩ :=
  ⟨by decide, dtToProto_dtFromProto_roundtrip (-1) 2 (by decide)⟩

/-- **C5**: the timestamp from-wire conversion fails exactly on the pairs that
do not denote a valid calendar instant, and its error carries both raw field
values; in particular `{seconds: i64::MAX, nanos: 4000000000}` fails with the
message naming `9223372036854775807 s` and `4000000000 ns`. -/
theorem dtFromProto_error_iff :
    (∀ s n, dtFromProto ⟨s, n⟩ = Except.error (timestampParseError s n) ↔
        ¬ validCalendarPair s n) ∧
      dtFromProto ⟨9223372036854775807, 4000000000⟩ =
        Except.error
          "Failed to parse timestamp: 9223372036854775807 s and 4000000000 ns" := by
  constructor
  · intro s n
    cases hft : NaiveDateTime.fromTimestampOpt s n with
    | none =>
      simp only [dtFromProto, hft]
      simpa using (fromTimestampOpt_eq_none_iff s n).mp hft
    | some value =>
      simp only [dtFromProto, hft]
      refine iff_of_false (by simp) (fun hnv => ?_)
      rw [(fromTimestampOpt_eq_none_iff s n).mpr hnv] at hft
      exact Option.noConfusion hft
  · rfl

/-- **C10**: the timestamp from-wire conversion accepts the leap-second range:
for every in-range second count and every `nanos` between `1000000000` and
`1999999999` it returns a successful timestamp, so it does not reject every
`nanos` outside `[0, 999999999]`. -/
theorem dtFromProto_accepts_leap_nanos (s : Int) (n : Nat)
    (hlo : -8334632851200 ≤ s) (hhi : s ≤ 8210298412799)
    (hn1 : 1000000000 ≤ n) (hn2 : n ≤ 1999999999) :
    ∃ d, dtFromProto ⟨s, n⟩ = Except.ok d := by
  refine ⟨⟨s / 86400 + unixEpochDaysFromCE, (s % 86400).toNat, n⟩, ?_⟩
  simp only [dtFromProto,
    fromTimestampOpt_eq_some_of_valid s n ⟨by omega, hlo, hhi⟩]

/-- Witness for C10: the leap-second acceptance theorem applied at
`{seconds: 0, nanos: 1999999999}`. -/
theorem dtFromProto_accepts_leap_nanos_witness :
    (-8334632851200 : Int) ≤ 0 ∧ (0 : Int) ≤ 8210298412799 ∧
      (1000000000 : Nat) ≤ 1999999999 ∧ (1999999999 : Nat) ≤ 1999999999 ∧
      ∃ d, dtFromProto ⟨0, 1999999999⟩ = Except.ok d :=
  ⟨by decide, by decide, by decide, by decide,
    dtFromProto_accepts_leap_nanos 0 1999999999 (by decide) (by decide)
      (by decide) (by decide)⟩

/-! ## Presence unwrap and the generic `Option`/`Vec` instances -/

/-- `Required::required` for `Option<T>` (src/src/lib.rs lines 14–24): `Some`
unwraps the value; `None` becomes the error built by
`anyhow::bail!("Required is missing")`. -/
def required {T : Type} (o : Option T) : Except String T :=
  match o with
  | some value => Except.ok value
  | none => Except.error "Required is missing"

/-- **C6 (counterexample)**: the claim says the error states
"required value missing", but the code's message is the string
"Required is missing", which is a different string. -/
theorem required_none_message_not_spec :
    required (none : Option Bool) = Except.error "Required is missing" ∧
      "Required is missing" ≠ "required value missing" := by
  exact ⟨rfl, by decide⟩

/-- **C6 (amended)**: for every optional wire value, `required` returns the
contained value when present, and otherwise fails with the error
"Required is missing". -/
theorem required_spec :
    (∀ (T : Type) (v : T), required (some v) = Except.ok v) ∧
      (∀ (T : Type), required (none : Option T) = Except.error "Required is missing") :=
  ⟨fun _ _ => rfl, fun _ => rfl⟩

/-- Rust's `Option::transpose`: `Option<Result<T, E>>` to `Result<Option<T>, E>`. -/
def optionTranspose {E A : Type} : Option (Except E A) → Except E (Option A)
  | none => Except.ok none
  | some (Except.ok a) => Except.ok (some a)
  | some (Except.error e) => Except.error e

/-- `FromProto for Option<T>` (src/src/lib.rs lines 60–66):
`self.map(|v| v.from_proto()).transpose()`, parameterised by the element
conversion `f`. -/
def optionFromProto {W D E : Type} (f : W → Except E D) (o : Option W) :
    Except E (Option D) :=
  optionTranspose (o.map f)

/-- **C7**: optional from-wire composition: an absent wire value converts to a
successful absent domain value, and a present one applies the element
conversion, propagating exactly its error on failure. -/
theorem optionFromProto_spec {W D E : Type} (f : W → Except E D) :
    optionFromProto f none = Except.ok none ∧
      (∀ w e, f w = Except.error e →
        optionFromProto f (some w) = Except.error e) ∧
      (∀ w d, f w = Except.ok d →
        optionFromProto f (some w) = Except.ok (some d)) := by
  refine ⟨rfl, ?_, ?_⟩
  · intro w e h
    simp only [optionFromProto, Option.map, h, optionTranspose]
  · intro w d h
    simp only [optionFromProto, Option.map, h, optionTranspose]

/-- An element conversion used to witness the generic composition theorems:
`true` converts to `1`, `false` fails with "boom". -/
def exConv (b : Bool) : Except String Nat :=
  if b then Except.ok 1 else Except.error "boom"

/-- Witness for C7: the composition theorem applied to `exConv` at `none`,
`some false` (error propagated) and `some true` (value converted). -/
theorem optionFromProto_spec_witness :
    optionFromProto exConv none = Except.ok none ∧
      optionFromProto exConv (some false) = Except.error "boom" ∧
      optionFromProto exConv (some true) = Except.ok (some 1) :=
  ⟨(optionFromProto_spec exConv).1,
    (optionFromProto_spec exConv).2.1 false "boom" rfl,
    (optionFromProto_spec exConv).2.2 true 1 rfl⟩

/-- `FromProto for Vec<T>` (src/src/lib.rs lines 153–163): iterate the
elements in order, pushing each converted element onto the result; the `?`
operator aborts the loop with the first element error, discarding the
partial vector. -/
def listFromProto {W D E : Type} (f : W → Except E D) : List W → Except E (List D)
  | [] => Except.ok []
  | item :: rest =>
    match f item with
    | Except.error e => Except.error e
    | Except.ok d =>
      match listFromProto f rest with
      | Except.error e => Except.error e
      | Except.ok ds => Except.ok (d :: ds)

/-- `ToProto for Vec<T>` (src/src/lib.rs lines 166–172):
`self.iter().map(|v| v.to_proto()).collect()`. -/
def listToProto {D W : Type} (f : D → W) (l : List D) : List W :=
  l.map f

/-- Helper for C8: a successful from-wire sequence conversion preserves length
and converts elementwise at every index. -/
theorem listFromProto_ok_elementwise {W D E : Type} (f : W → Except E D) :
    ∀ (l : List W) (res : List D), listFromProto f l = Except.ok res →
      res.length = l.length ∧
        ∀ i (hl : i < l.length) (hr : i < res.length),
          f (l.get ⟨i, hl⟩) = Except.ok (res.get ⟨i, hr⟩)
  | [], res, h => by
    simp only [listFromProto, Except.ok.injEq] at h
    subst h
    exact ⟨rfl, fun i hl _ => absurd hl (by simp)⟩
  | item :: rest, res, h => by
    rw [listFromProto] at h
    cases hf : f item with
    | error e => rw [hf] at h; exact Except.noConfusion h
    | ok d =>
      rw [hf] at h
      cases hrest : listFromProto f rest with
      | error e => rw [hrest] at h; exact Except.noConfusion h
      | ok ds =>
        rw [hrest] at h
        obtain ⟨hlen, helem⟩ := listFromProto_ok_elementwise f rest ds hrest
        obtain rfl : d :: ds = res := by
          simpa using h
        refine ⟨by simp [hlen], ?_⟩
        intro i hl hr
        match i with
        | 0 => simpa using hf
        | j + 1 =>
          simpa using helem j (by simpa using hl) (by simpa using hr)

/-- Helper for C8: the from-wire sequence conversion fails fast: if every
element before `x` converts successfully and `x` fails with `e`, the whole
conversion returns `e` and no partial result. -/
theorem listFromProto_failfast {W D E : Type} (f : W → Except E D) :
    ∀ (pre : List W) (x : W) (post : List W) (e : E),
      (∀ w ∈ pre, ∃ d, f w = Except.ok d) → f x = Except.error e →
        listFromProto f (pre ++ x :: post) = Except.error e
  | [], x, post, e, _, hx => by
    simp only [List.nil_append, listFromProto, hx]
  | w :: pre, x, post, e, hall, hx => by
    obtain ⟨d, hd⟩ := hall w (by simp)
    have ih := listFromProto_failfast f pre x post e
      (fun v hv => hall v (by simp [hv])) hx
    have ih' : listFromProto f (pre.append (x :: post)) = Except.error e := ih
    simp only [List.cons_append, listFromProto, hd, ih']

/-- **C8**: sequence composition.  A successful from-wire conversion of a
sequence preserves order and length (element `i` of the output is the
conversion of element `i` of the input); if an element fails, the whole
conversion returns that element's error with no partial result; and the
to-wire sequence conversion is a total elementwise map, preserving order and
length. -/
theorem listConversion_spec {W D E : Type} (f : W → Except E D) :
    (∀ (l : List W) (res : List D), listFromProto f l = Except.ok res →
        res.length = l.length ∧
          ∀ i (hl : i < l.length) (hr : i < res.length),
            f (l.get ⟨i, hl⟩) = Except.ok (res.get ⟨i, hr⟩)) ∧
      (∀ (pre : List W) (x : W) (post : List W) (e : E),
        (∀ w ∈ pre, ∃ d, f w = Except.ok d) → f x = Except.error e →
          listFromProto f (pre ++ x :: post) = Except.error e) ∧
      (∀ (A B : Type) (g : A → B) (l : List A),
        (listToProto g l).length = l.length ∧
          ∀ i (hl : i < l.length) (hr : i < (listToProto g l).length),
            (listToProto g l).get ⟨i, hr⟩ = g (l.get ⟨i, hl⟩)) := by
  refine ⟨listFromProto_ok_elementwise f, listFromProto_failfast f, ?_⟩
  intro A B g l
  refine ⟨by simp [listToProto], ?_⟩
  intro i hl hr
  simp [listToProto]

/-- Witness for C8: the sequence theorem applied to `exConv` on the
three-element list whose second element fails (fail-fast with "boom"), and to
a successful list probing index 1 and the to-wire direction. -/
theorem listConversion_spec_witness :
    listFromProto exConv ([true] ++ false :: [true]) = Except.error "boom" ∧
      exConv (([true, true] : List Bool).get ⟨1, by decide⟩) =
        Except.ok (([1, 1] : List Nat).get ⟨1, by decide⟩) ∧
      (listToProto Nat.succ [5, 6]).length = 2 :=
  ⟨(listConversion_spec exConv).2.1 [true] false [true] "boom"
      (fun w hw => by
        have hwt : w = true := by simpa using hw
        exact ⟨1, by simp [hwt, exConv]⟩) rfl,
    ((listConversion_spec exConv).1 [true, true] [1, 1] rfl).2 1
      (by decide) (by decide),
    ((listConversion_spec exConv).2.2 Nat Nat Nat.succ [5, 6]).1⟩
